import Mathlib

/-!
Verification of the onedrive-uploader-node core against its source.

The TypeScript source is shallowly embedded: JS numbers that only ever hold
byte counts are modelled as `Nat`; JS real-number division appears as `Rat`
division; the one place where the source can divide by zero is modelled with
an explicit IEEE-style value type (`JSNum`).  Stateful module-level code
(task registry, worker pool, retry loop) is modelled as explicit state
passing over the same data the source manipulates, and terminal output is
modelled as the list of strings written to stdout, in order.
-/

namespace Uploader

/-! ## SizeFormatter (`formatSize` in src/progress.ts and in the unnamed
progress module; the two copies are identical) -/

/-- `Math.round` of JavaScript on a nonnegative rational: round half toward
positive infinity, i.e. `⌊q + 1/2⌋` (stated executably via `Rat.floor`). -/
def jsRound (q : ℚ) : ℤ := (q + 1 / 2).floor

/-- `Number.prototype.toFixed(1)` on a nonnegative rational: the integer
nearest `10 q` (ties toward the larger integer), split into the integer part
and one decimal digit. -/
def toFixed1 (q : ℚ) : String :=
  let m : ℤ := (q * 10 + 1 / 2).floor
  toString (m / 10) ++ "." ++ toString (m % 10)

/-- Embedding of `formatSize`.  The source repeatedly reassigns
`n = n / 1024`; here every branch condition and payload is written with the
accumulated divisions spelled out. -/
def formatSize (bytes : ℕ) : String :=
  if bytes < 1024 then
    toString bytes ++ "B"
  else if jsRound ((bytes : ℚ) / 1024) < 1000 then
    toString (jsRound ((bytes : ℚ) / 1024)) ++ "KB"
  else if (bytes : ℚ) / 1024 / 1024 < 1000 then
    toFixed1 ((bytes : ℚ) / 1024 / 1024) ++ "MB"
  else
    toFixed1 ((bytes : ℚ) / 1024 / 1024 / 1024) ++ "GB"

/-- The unit picked by `formatSize`, numbered B = 0, KB = 1, MB = 2, GB = 3;
the branch conditions are exactly those of `formatSize`. -/
def unitIndex (bytes : ℕ) : ℕ :=
  if bytes < 1024 then 0
  else if jsRound ((bytes : ℚ) / 1024) < 1000 then 1
  else if (bytes : ℚ) / 1024 / 1024 < 1000 then 2
  else 3

/-- Unit suffix attached by each `formatSize` branch. -/
def unitName (i : ℕ) : String :=
  if i = 0 then "B" else if i = 1 then "KB" else if i = 2 then "MB" else "GB"

/-! ## Instantaneous speed (src/upload.ts, progress handler inside
`uploadWithRetries`):
`(range.maxValue - range.minValue) / ((Date.now() - timestamp) / 1000)` -/

/-- A JavaScript number as produced by division: either a finite rational or
one of the IEEE special values. -/
inductive JSNum where
  | val (q : ℚ)
  | posInf
  | negInf
  | nan
deriving DecidableEq

/-- JavaScript division of finite doubles, including the zero-divisor cases
of IEEE 754 (`x / 0` is `±Infinity` for `x ≠ 0` and `NaN` for `x = 0`). -/
def jsDiv (a b : ℚ) : JSNum :=
  if b = 0 then
    if a = 0 then .nan else if 0 < a then .posInf else .negInf
  else .val (a / b)

/-- The speed computation of the progress handler in `uploadWithRetries`
(src/upload.ts lines 159-161), with `elapsedMs = Date.now() - timestamp`.
The source performs the division unconditionally. -/
def computeSpeed (minValue maxValue elapsedMs : ℕ) : JSNum :=
  jsDiv ((maxValue : ℚ) - (minValue : ℚ)) ((elapsedMs : ℚ) / 1000)

/-! ## Task registry and progress rendering (unnamed progress module:
`taskUpdate`, `taskDelete`, `showProgress`, `getItemProgress`).  Terminal
output is modelled as the ordered list of strings passed to
`process.stdout.write`; the `cursorTo` / `clearScreenDown` calls are cursor
control, not text writes, and are not part of that list. -/

/-- A registry entry (`TaskItem`).  `speed` is a JS number in the source
(it can even be `Infinity`, see `computeSpeed`); the registry and renderer
claims never interpret it, so it is modelled as a natural. -/
structure TaskItem where
  filePath : String
  size : ℕ
  speed : ℕ
  uploaded : ℕ
deriving DecidableEq

/-- The `State` part of a `ProgressContext`: `total?: number`,
`running?: number`, `pending: number`. -/
structure State where
  total : Option ℕ
  running : Option ℕ
  pending : ℕ
deriving DecidableEq

/-- JavaScript truthiness of an optional number (`undefined`, `0` falsy). -/
def jsTruthy : Option ℕ → Bool
  | none => false
  | some n => n != 0

/-- `path.basename` for POSIX-style paths: the substring after the last
separator. -/
def basename (p : String) : String :=
  ((p.splitOn "/").getLast?).getD p

/-- `String.prototype.padEnd(len, c)`: pad on the right up to `len`;
a string already at least `len` long is returned unchanged. -/
def padEnd (s : String) (len : ℕ) (c : Char) : String :=
  s ++ String.mk (List.replicate (len - s.length) c)

/-- `String.prototype.padStart(len, c)`. -/
def padStart (s : String) (len : ℕ) (c : Char) : String :=
  String.mk (List.replicate (len - s.length) c) ++ s

/-- `String.prototype.slice(0, len)`. -/
def sliceTo (s : String) (len : ℕ) : String :=
  String.mk (s.data.take len)

/-- Embedding of `getItemProgress` for one task line.  `fml` is the module
variable `filenameMaxLen` (`terminal columns - 40`).  The percentage
`Math.floor((uploaded / size) * 1000) / 10` is carried as a count of tenths
of a percent (`tenths`); its `toFixed(1)` rendering is then integer part,
a dot and one digit.  (The model assumes `size ≠ 0`, where the JS division
would produce `NaN`; the scheduler only registers files, whose size the
filter bounds away from zero.) -/
def getItemProgress (fml : ℕ) (item : TaskItem) : String :=
  let filename := sliceTo (padEnd (basename item.filePath) fml ' ') fml
  let sizeStr := sliceTo (padStart (formatSize item.size) 8 ' ') 8
  let speedStr := sliceTo (padStart (formatSize item.speed ++ "/s") 9 ' ') 9
  let tenths := item.uploaded * 1000 / item.size
  let n := tenths / 50
  let barPre := padEnd (String.mk (List.replicate (min n 6) '#')) 6 '.'
  let barSuf := padEnd (String.mk (List.replicate (n - 13) '#')) 7 '.'
  let progressStr := padStart (toString (tenths / 10) ++ "." ++ toString (tenths % 10)) 4 ' '
  filename ++ " " ++ sizeStr ++ " " ++ speedStr ++ " " ++
    barPre ++ "[" ++ progressStr ++ "%]" ++ barSuf ++ "\n"

/-- The `Total tasks:` header line. -/
def totalLine (n : ℕ) : String := "Total tasks: " ++ toString n ++ "\n"

/-- The `Running tasks:` header line. -/
def runningLine (n : ℕ) : String := "Running tasks: " ++ toString n ++ "\n"

/-- The `Pending tasks:` header line. -/
def pendingLine (n : ℕ) : String := "Pending tasks: " ++ toString n ++ "\n"

/-- The header writes of `showProgress`:
`total && write(...)`, `running && write(...)`, then the pending line,
written unconditionally by the source. -/
def headerWrites (st : State) : List String :=
  (match st.total with
    | some n => if n ≠ 0 then [totalLine n] else []
    | none => []) ++
  (match st.running with
    | some n => if n ≠ 0 then [runningLine n] else []
    | none => []) ++
  [pendingLine st.pending]

/-- Embedding of `showProgress` (unnamed progress module, lines 125-139):
header lines, a separator rule of `cols` dashes, the column header, then the
per-task lines joined into a single write. -/
def showProgressWrites (cols fml : ℕ) (st : State) (tasks : List TaskItem) :
    List String :=
  headerWrites st ++
    [String.mk (List.replicate cols '-') ++ "\n",
     padEnd "Name" fml ' ' ++ "     Size     Speed Progress\n",
     String.join (tasks.map (getItemProgress fml))]

/-- The registry mutation of `taskUpdate`: find the first entry with the
same `filePath` and overwrite its `speed` and `uploaded` in place, else push
the item at the end. -/
def taskUpdateList (item : TaskItem) : List TaskItem → List TaskItem
  | [] => [item]
  | t :: ts =>
    if t.filePath = item.filePath then
      { t with speed := item.speed, uploaded := item.uploaded } :: ts
    else
      t :: taskUpdateList item ts

/-- Embedding of `taskUpdate`: mutate the registry, then render it. -/
def taskUpdate (cols fml : ℕ) (st : State) (item : TaskItem)
    (tasks : List TaskItem) : List TaskItem × List String :=
  let tasks2 := taskUpdateList item tasks
  (tasks2, showProgressWrites cols fml st tasks2)

/-- Embedding of `taskDelete`: `findIndex` on `filePath`; on `-1` return
early (registry unchanged, nothing written); otherwise drop that entry
(`tasks.slice(0, i).concat(tasks.slice(i + 1))`) and render. -/
def taskDelete (cols fml : ℕ) (st : State) (fp : String)
    (tasks : List TaskItem) : List TaskItem × List String :=
  match tasks.findIdx? (fun t => t.filePath == fp) with
  | none => (tasks, [])
  | some i =>
    let tasks2 := tasks.eraseIdx i
    (tasks2, showProgressWrites cols fml st tasks2)

/-- One registry operation, as issued by the uploaders. -/
inductive RegOp where
  | update (item : TaskItem)
  | delete (fp : String)

/-- Registry effect of one operation (rendering parameters are irrelevant to
the registry contents). -/
def regStep (ts : List TaskItem) : RegOp → List TaskItem
  | .update item => (taskUpdate 0 0 ⟨none, none, 0⟩ item ts).1
  | .delete fp => (taskDelete 0 0 ⟨none, none, 0⟩ fp ts).1

/-- The registry contents after a sequence of operations, starting from the
empty module-level `tasks` array. -/
def applyOps (ops : List RegOp) : List TaskItem :=
  ops.foldl regStep []

/-! ## Directory walking and filtering (src/upload.ts `walkdirSync`,
`getFiles`).  The filesystem is modelled as a tree of entries; `walkdirSync`
visits entries in listing order and recurses into subdirectories in place,
exactly as the `readdirSync`/`reduce` loop of the source does. -/

/-- A filesystem entry: a regular file with its size, or a directory with
its ordered listing. -/
inductive FsEntry where
  | file (name : String) (size : ℕ)
  | dir (name : String) (entries : List FsEntry)

/-- A discovered file: path relative to the walk root, and size. -/
structure FileDesc where
  path : String
  size : ℕ
deriving DecidableEq

/-- `path.join` for the two-argument relative case of the source. -/
def joinPath (a b : String) : String :=
  if a = "" then b else a ++ "/" ++ b

mutual

/-- Embedding of `walkdirSync(dir, root)`: `dir` is the relative path
accumulated so far, and the listing of the corresponding directory is given
as the entry list.  The `reduce` loop of the source appends, per entry in
listing order, either the one file descriptor or the recursive walk of the
subdirectory. -/
def walkdirSync (dir : String) : List FsEntry → List FileDesc
  | [] => []
  | e :: rest => walkEntry dir e ++ walkdirSync dir rest

/-- One iteration of the `reduce` loop of `walkdirSync`: a file contributes
its descriptor, a directory contributes its recursive walk in place. -/
def walkEntry (dir : String) : FsEntry → List FileDesc
  | .file name size => [⟨joinPath dir name, size⟩]
  | .dir name entries => walkdirSync (joinPath dir name) entries

end

/-- `String.prototype.endsWith`, stated on the character lists. -/
def jsEndsWith (s suffix : String) : Bool :=
  suffix.data.isSuffixOf s.data

/-- The extension allow-list of `getFiles`. -/
def suffixes : List String := [".mp4", ".mkv"]

/-- The filter predicate of `getFiles`: a matching extension, and
`size > 10 * 1024 * 1024` (strict). -/
def fileFilter (f : FileDesc) : Bool :=
  if suffixes.any (fun suf => jsEndsWith f.path suf) then
    decide (10 * 1024 * 1024 < f.size)
  else false

/-- Embedding of `getFiles`: a plain file is returned alone; a directory is
walked (starting from its own basename, as the source does) and filtered. -/
def getFiles : FsEntry → List FileDesc
  | .file name size => [⟨name, size⟩]
  | .dir name entries => (walkdirSync name entries).filter fileFilter

/-! ## Worker pool scheduler (src/upload.ts, bottom of the module).
`pending = files.slice(MAX_TASK_NUM)` is the module-level queue;
`files.slice(0, MAX_TASK_NUM)` are launched immediately; every launch gets
the self-chaining callback that shifts the queue head and launches it with
the same callback.  The set of in-flight uploads is implicit in the source
(the outstanding async calls); it is modelled as the `active` list, in
launch order. -/

/-- `const MAX_TASK_NUM = 5`. -/
def MAX_TASK_NUM : ℕ := 5

/-- The scheduler state: the FIFO pending queue and the in-flight uploads. -/
structure PoolState where
  pending : List FileDesc
  active : List FileDesc
deriving DecidableEq

/-- The initial launch: first `MAX_TASK_NUM` files start immediately, the
rest form the pending queue. -/
def initPool (files : List FileDesc) : PoolState :=
  ⟨files.drop MAX_TASK_NUM, files.take MAX_TASK_NUM⟩

/-- Completion of the in-flight upload `f`: it leaves the active set, then
its callback runs `pending.shift()` and, if a file was dequeued, launches it
(with the same callback shape). -/
def onDoneStep (st : PoolState) (f : FileDesc) : PoolState :=
  let active2 := st.active.erase f
  match st.pending with
  | [] => ⟨[], active2⟩
  | next :: rest => ⟨rest, active2 ++ [next]⟩

/-! ## Retrying uploader (src/upload.ts `upload`, `uploadWithRetries`).

The resumable-upload collaborator (`LargeFileUploadTask`) is external; it is
modelled from its interface contract (spec section 6): a fresh session
uploads from byte 0, `task.resume()` on a retained session continues from
the byte offset that session has acknowledged, and each acknowledged chunk
of `rangeSize` bytes fires one progress callback with its byte range.
The environment drives each attempt with an `AttemptRun`: how many chunks
the remote acknowledges before the attempt ends, and how it ends. -/

/-- `rangeSize: 5 * 1024 * 1024` from the task options in `upload`. -/
def rangeSize : ℕ := 5 * 1024 * 1024

/-- A progress callback payload: bytes `[minValue, maxValue)` acknowledged. -/
structure Range where
  minValue : ℕ
  maxValue : ℕ
deriving DecidableEq

/-- How an attempt ends: resolved, rejected with a provider error carrying a
structured code (`err.error.code` truthy), or rejected without one. -/
inductive UploadOutcome where
  | success
  | errWithCode (code : String)
  | errNoCode
deriving DecidableEq

/-- Environment description of one attempt. -/
structure AttemptRun where
  chunksAcked : ℕ
  result : UploadOutcome
deriving DecidableEq

/-- The opaque resumable session handle; the collaborator tracks the bytes
it has acknowledged. -/
structure UploadSession where
  acked : ℕ
deriving DecidableEq

/-- Progress events for `k` acknowledged chunks starting at offset `start`,
clamped to the file size. -/
def chunkEvents (fileSize start : ℕ) : ℕ → List Range
  | 0 => []
  | k + 1 =>
    if start < fileSize then
      ⟨start, min (start + rangeSize) fileSize⟩ ::
        chunkEvents fileSize (min (start + rangeSize) fileSize) k
    else []

/-- Embedding of `upload` against the collaborator contract: with a retained
session the task resumes from that session's acknowledged offset
(`task.resume()`); without one, a fresh session is created and the task
uploads from byte 0 (`task.upload()`).  Returns the progress events, the
session the attempt ran on (what `afterCreateUploadSession` hands back for a
fresh session), and the outcome. -/
def uploadAttempt (fileSize : ℕ) (uploadSession : Option UploadSession)
    (run : AttemptRun) : List Range × UploadSession × UploadOutcome :=
  let start := match uploadSession with
    | some s => s.acked
    | none => 0
  let events := chunkEvents fileSize start run.chunksAcked
  let finalAcked := match events.getLast? with
    | some r => r.maxValue
    | none => start
  (events, ⟨finalAcked⟩, run.result)

/-- Record of one attempt as `uploadWithRetries` performed it: the session
argument it passed to `upload`, the progress events fired, and the timer
delay of the retry it scheduled (if any). -/
structure AttemptTrace where
  sessionArg : Option UploadSession
  events : List Range
  retryDelayMs : Option ℕ
deriving DecidableEq

/-- How the retry loop left this file: `completed` means `taskDelete` ran
and the completion callback was invoked; `abandoned` means the catch block
returned silently (permanent provider error: no retry, no callback, no
rethrow); `retriesPending` means the environment trace ended while a retry
was still scheduled. -/
inductive RetryEnd where
  | completed
  | abandoned
  | retriesPending
deriving DecidableEq

/-- Embedding of `uploadWithRetries`.  The source declares
`let uploadSession: LargeFileUploadSession | undefined = undefined;` at the
top of the function body, so every (re-)invocation starts with `none` and
that is the value the options object passes to `upload`.
`afterCreateUploadSession` later assigns the created session to this local,
but the local is never read afterwards (the retry is a fresh invocation
with its own local), so the assignment is a dead store and the created
session is dropped. -/
def uploadWithRetries (fileSize : ℕ) :
    List AttemptRun → List AttemptTrace × RetryEnd
  | [] => ([], .retriesPending)
  | run :: rest =>
    let uploadSession : Option UploadSession := none
    let att := uploadAttempt fileSize uploadSession run
    match att.2.2 with
    | .success => ([⟨uploadSession, att.1, none⟩], .completed)
    | .errWithCode _ => ([⟨uploadSession, att.1, none⟩], .abandoned)
    | .errNoCode =>
      let next := uploadWithRetries fileSize rest
      (⟨uploadSession, att.1, some 3000⟩ :: next.1, next.2)

/-! ## Theorems -/

theorem ratFloor_eq (q : ℚ) : q.floor = ⌊q⌋ := by
  rw [Rat.floor_def', Rat.floor_def]

theorem jsRound_eq (q : ℚ) : jsRound q = ⌊q + 1 / 2⌋ := by
  rw [jsRound, ratFloor_eq]

theorem kb_cond (b : ℕ) : jsRound ((b : ℚ) / 1024) < 1000 ↔ b < 1023488 := by
  rw [jsRound_eq, Int.floor_lt]
  push_cast
  constructor
  · intro h
    have hb : (b : ℚ) < 1023488 := by linarith
    exact_mod_cast hb
  · intro h
    have hb : (b : ℚ) < 1023488 := by exact_mod_cast h
    linarith

theorem mb_cond (b : ℕ) : (b : ℚ) / 1024 / 1024 < 1000 ↔ b < 1048576000 := by
  constructor
  · intro h
    have hb : (b : ℚ) < 1048576000 := by linarith
    exact_mod_cast hb
  · intro h
    have hb : (b : ℚ) < 1048576000 := by exact_mod_cast h
    linarith

theorem unitIndex_eq (b : ℕ) : unitIndex b =
    if b < 1024 then 0 else if b < 1023488 then 1
    else if b < 1048576000 then 2 else 3 := by
  simp only [unitIndex, kb_cond, mb_cond]

theorem unitIndex_mono {b1 b2 : ℕ} (h : b1 ≤ b2) :
    unitIndex b1 ≤ unitIndex b2 := by
  rw [unitIndex_eq, unitIndex_eq]
  split_ifs <;> omega

theorem formatSize_unitName (b : ℕ) :
    ∃ s : String, formatSize b = s ++ unitName (unitIndex b) := by
  unfold formatSize unitIndex
  split_ifs <;> exact ⟨_, rfl⟩

theorem fmt_500 : formatSize 500 = "500B" := by
  unfold formatSize
  rw [if_pos (by norm_num)]
  rfl

theorem fmt_2048 : formatSize 2048 = "2KB" := by
  have hj : jsRound (((2048 : ℕ) : ℚ) / 1024) = 2 := by
    rw [jsRound_eq, Int.floor_eq_iff]
    constructor <;> norm_num
  unfold formatSize
  rw [hj, if_neg (by norm_num), if_pos (by norm_num)]
  rfl

theorem fmt_1572864 : formatSize 1572864 = "1.5MB" := by
  have hj : jsRound (((1572864 : ℕ) : ℚ) / 1024) = 1536 := by
    rw [jsRound_eq, Int.floor_eq_iff]
    constructor <;> norm_num
  have hf : toFixed1 (((1572864 : ℕ) : ℚ) / 1024 / 1024) = "1.5" := by
    have hm : ((((1572864 : ℕ) : ℚ) / 1024 / 1024) * 10 + 1 / 2).floor = 15 := by
      rw [ratFloor_eq, Int.floor_eq_iff]
      constructor <;> norm_num
    simp only [toFixed1]
    rw [hm]
    rfl
  unfold formatSize
  rw [hj, if_neg (by norm_num), if_neg (by norm_num), if_pos (by norm_num), hf]
  rfl

theorem fmt_1610612736 : formatSize 1610612736 = "1.5GB" := by
  have hj : jsRound (((1610612736 : ℕ) : ℚ) / 1024) = 1572864 := by
    rw [jsRound_eq, Int.floor_eq_iff]
    constructor <;> norm_num
  have hf : toFixed1 (((1610612736 : ℕ) : ℚ) / 1024 / 1024 / 1024) = "1.5" := by
    have hm : ((((1610612736 : ℕ) : ℚ) / 1024 / 1024 / 1024) * 10 + 1 / 2).floor
        = 15 := by
      rw [ratFloor_eq, Int.floor_eq_iff]
      constructor <;> norm_num
    simp only [toFixed1]
    rw [hm]
    rfl
  unfold formatSize
  rw [hj, if_neg (by norm_num), if_neg (by norm_num), if_neg (by norm_num), hf]
  rfl

/-- C7: `formatSize` renders a byte count with a unit suffix determined by
`unitIndex`, that unit is monotonically non-decreasing in the byte count,
and the four sample values render as claimed: 500 bytes as `500B`, 2048 as
`2KB`, 1572864 as `1.5MB` and 1610612736 as `1.5GB`. -/
theorem claim_C7 :
    (∀ b1 b2 : ℕ, b1 ≤ b2 → unitIndex b1 ≤ unitIndex b2) ∧
    (∀ b : ℕ, ∃ s : String, formatSize b = s ++ unitName (unitIndex b)) ∧
    formatSize 500 = "500B" ∧ formatSize 2048 = "2KB" ∧
    formatSize 1572864 = "1.5MB" ∧ formatSize 1610612736 = "1.5GB" :=
  ⟨fun _ _ h => unitIndex_mono h, formatSize_unitName,
    fmt_500, fmt_2048, fmt_1572864, fmt_1610612736⟩

/-- Witness for C7: the monotonicity part applied at the concrete pair
2048 ≤ 1572864, together with one of the proved sample values. -/
theorem claim_C7_witness :
    unitIndex 2048 ≤ unitIndex 1572864 ∧ formatSize 2048 = "2KB" :=
  ⟨claim_C7.1 2048 1572864 (by decide), claim_C7.2.2.2.1⟩

/-- C6 counterexample: the source computes the speed with no guard on a zero
elapsed time; at `elapsedMs = 0` with 5242880 fresh bytes the division is
performed with a zero divisor and produces `Infinity`, not a skipped or
clamped finite value. -/
theorem claim_C6_counterexample : computeSpeed 0 5242880 0 = JSNum.posInf := by
  simp only [computeSpeed, jsDiv]
  norm_num

/-- C6 as amended: the speed is `(max - min) / (elapsedMs / 1000)` computed
unconditionally; when `elapsedMs = 0` and bytes were transferred the result
is `Infinity` (IEEE division by zero), and only when `elapsedMs ≠ 0` is it
the finite value `(max - min) * 1000 / elapsedMs`. -/
theorem claim_C6_amended (minValue maxValue elapsedMs : ℕ) :
    (elapsedMs = 0 → minValue < maxValue →
      computeSpeed minValue maxValue elapsedMs = .posInf) ∧
    (elapsedMs ≠ 0 →
      computeSpeed minValue maxValue elapsedMs =
        .val (((maxValue : ℚ) - minValue) * 1000 / elapsedMs)) := by
  constructor
  · intro he hlt
    subst he
    have ha : (0 : ℚ) < (maxValue : ℚ) - minValue := by
      have : (minValue : ℚ) < maxValue := by exact_mod_cast hlt
      linarith
    simp only [computeSpeed, jsDiv]
    norm_num [ha, ne_of_gt ha]
  · intro he
    have hb : ((elapsedMs : ℚ) / 1000) ≠ 0 := by
      have : (elapsedMs : ℚ) ≠ 0 := Nat.cast_ne_zero.mpr he
      positivity
    simp only [computeSpeed, jsDiv, if_neg hb]
    rw [div_div_eq_mul_div]

/-- Witness for C6 as amended: at `elapsedMs = 0` the speed is `Infinity`;
at `elapsedMs = 2000` it is the finite quotient. -/
theorem claim_C6_witness :
    computeSpeed 0 100 0 = JSNum.posInf ∧
    computeSpeed 0 100 2000 = .val (((100 : ℚ) - 0) * 1000 / 2000) :=
  ⟨(claim_C6_amended 0 100 0).1 rfl (by decide),
    (claim_C6_amended 0 100 2000).2 (by decide)⟩

theorem uploadAttempt_result (fileSize : ℕ) (s : Option UploadSession)
    (run : AttemptRun) : (uploadAttempt fileSize s run).2.2 = run.result := rfl

theorem uploadWithRetries_cons (fileSize : ℕ) (run : AttemptRun)
    (rest : List AttemptRun) :
    uploadWithRetries fileSize (run :: rest) =
      match run.result with
      | .success =>
        ([⟨none, (uploadAttempt fileSize none run).1, none⟩], .completed)
      | .errWithCode _ =>
        ([⟨none, (uploadAttempt fileSize none run).1, none⟩], .abandoned)
      | .errNoCode =>
        (⟨none, (uploadAttempt fileSize none run).1, some 3000⟩ ::
            (uploadWithRetries fileSize rest).1,
         (uploadWithRetries fileSize rest).2) := by
  obtain ⟨k, res⟩ := run
  cases res <;> rfl

/-- C2: an attempt rejected with a provider error code makes
`uploadWithRetries` return silently from the catch block: the trace has that
single attempt regardless of how the environment would treat further
attempts, no retry timer is scheduled (`retryDelayMs = none`), the loop ends
`abandoned` (so the success path that runs `taskDelete` and the completion
callback is never reached), and the function still returns a value (the
error is swallowed, not rethrown). -/
theorem claim_C2 (fileSize : ℕ) (run : AttemptRun) (rest : List AttemptRun)
    (code : String) (h : run.result = .errWithCode code) :
    uploadWithRetries fileSize (run :: rest) =
      ([⟨none, (uploadAttempt fileSize none run).1, none⟩], .abandoned) := by
  rw [uploadWithRetries_cons, h]

/-- Witness for C2: a single permanently failing attempt is abandoned with
no retry and no completion. -/
theorem claim_C2_witness :
    uploadWithRetries 100 [⟨0, .errWithCode "invalidRequest"⟩] =
      ([⟨none, ([] : List Range), none⟩], .abandoned) :=
  claim_C2 100 ⟨0, .errWithCode "invalidRequest"⟩ [] "invalidRequest" rfl

/-- C3: an attempt rejected without a provider error code schedules a retry
of the same file after exactly a 3000 ms timer, and the retrying is
unbounded: for every `n`, after `n` consecutive transient failures the loop
has made `n` attempts, each with a 3-second retry scheduled, and is still
retrying (no attempt cap ends it). -/
theorem claim_C3 :
    (∀ (fileSize : ℕ) (run : AttemptRun) (rest : List AttemptRun),
      run.result = .errNoCode →
      uploadWithRetries fileSize (run :: rest) =
        (⟨none, (uploadAttempt fileSize none run).1, some 3000⟩ ::
            (uploadWithRetries fileSize rest).1,
         (uploadWithRetries fileSize rest).2)) ∧
    (∀ fileSize n : ℕ,
      (uploadWithRetries fileSize (List.replicate n ⟨0, .errNoCode⟩)).1.length
          = n ∧
      (uploadWithRetries fileSize (List.replicate n ⟨0, .errNoCode⟩)).2 =
        .retriesPending ∧
      ∀ a ∈ (uploadWithRetries fileSize (List.replicate n ⟨0, .errNoCode⟩)).1,
        a.retryDelayMs = some 3000) := by
  have hcons : ∀ (fileSize : ℕ) (run : AttemptRun) (rest : List AttemptRun),
      run.result = .errNoCode →
      uploadWithRetries fileSize (run :: rest) =
        (⟨none, (uploadAttempt fileSize none run).1, some 3000⟩ ::
            (uploadWithRetries fileSize rest).1,
         (uploadWithRetries fileSize rest).2) := by
    intro fileSize run rest h
    rw [uploadWithRetries_cons, h]
  refine ⟨hcons, ?_⟩
  intro fileSize n
  induction n with
  | zero => exact ⟨rfl, rfl, by intro a ha; simp [uploadWithRetries] at ha⟩
  | succ k ih =>
    rw [List.replicate_succ, hcons fileSize ⟨0, .errNoCode⟩ _ rfl]
    dsimp only
    refine ⟨by rw [List.length_cons, ih.1], ih.2.1, ?_⟩
    intro a ha
    rcases List.mem_cons.mp ha with rfl | ha2
    · rfl
    · exact ih.2.2 a ha2

/-- Witness for C3: one transient failure yields one attempt with a 3000 ms
retry scheduled and the loop still pending. -/
theorem claim_C3_witness :
    uploadWithRetries 100 [⟨0, .errNoCode⟩] =
      ([⟨none, ([] : List Range), some 3000⟩], .retriesPending) :=
  claim_C3.1 100 ⟨0, .errNoCode⟩ [] rfl

/-- C1 (evaluation at the failing input): a 12 MiB file whose first attempt
acknowledges one 5 MiB chunk (bytes `[0, 5242880)`) and then fails
transiently.  The retried attempt again passes `sessionArg = none` to
`upload` — the session retained by `afterCreateUploadSession` is a dead
store, re-initialised to `undefined` by the re-invocation — so the
collaborator creates a fresh session and the retry restarts from byte 0:
its first progress callback reports `minValue = 0 < 5242880`, contradicting
the claimed `minValue >= X` resume guarantee. -/
theorem claim_C1_restart :
    uploadWithRetries 12582912 [⟨1, .errNoCode⟩, ⟨3, .success⟩] =
      ([⟨none, [⟨0, 5242880⟩], some 3000⟩,
        ⟨none, [⟨0, 5242880⟩, ⟨5242880, 10485760⟩, ⟨10485760, 12582912⟩],
          none⟩],
       .completed) := by rfl

/-- C4: with `MAX_TASK_NUM = 5`, the first `min(n, 5)` files launch
immediately in discovery order and the rest form the FIFO pending queue;
when an active upload finishes and the queue is non-empty, its callback
dequeues exactly the queue head and launches it, keeping the active count
unchanged; when the queue is empty the slot is simply freed. -/
theorem claim_C4 (files : List FileDesc) (st : PoolState) (f next : FileDesc)
    (rest : List FileDesc) :
    ((initPool files).active = files.take 5 ∧
     (initPool files).pending = files.drop 5 ∧
     (initPool files).active.length = min files.length 5) ∧
    (f ∈ st.active → st.pending = next :: rest →
      onDoneStep st f = ⟨rest, st.active.erase f ++ [next]⟩ ∧
      (onDoneStep st f).active.length = st.active.length ∧
      (onDoneStep st f).pending = rest) ∧
    (st.pending = [] → onDoneStep st f = ⟨[], st.active.erase f⟩) := by
  refine ⟨⟨rfl, rfl, ?_⟩, ?_, ?_⟩
  · simp only [initPool, MAX_TASK_NUM, List.length_take]
    omega
  · intro hf hp
    have hpos : 0 < st.active.length := List.length_pos_of_mem hf
    have herase : (st.active.erase f).length = st.active.length - 1 :=
      List.length_erase_of_mem hf
    refine ⟨by simp [onDoneStep, hp], ?_, by simp [onDoneStep, hp]⟩
    simp only [onDoneStep, hp, List.length_append, herase,
      List.length_singleton]
    omega
  · intro hp
    simp [onDoneStep, hp]

/-- Witness for C4: seven files; the first five are active, two pending;
completing the first active upload dequeues the sixth file, leaving the
active count at five and one file pending. -/
theorem claim_C4_witness :
    (onDoneStep
        (initPool [⟨"a", 1⟩, ⟨"b", 1⟩, ⟨"c", 1⟩, ⟨"d", 1⟩, ⟨"e", 1⟩,
          ⟨"f", 1⟩, ⟨"g", 1⟩]) ⟨"a", 1⟩).active.length =
      (initPool [⟨"a", 1⟩, ⟨"b", 1⟩, ⟨"c", 1⟩, ⟨"d", 1⟩, ⟨"e", 1⟩,
        ⟨"f", 1⟩, ⟨"g", 1⟩]).active.length ∧
    (onDoneStep
        (initPool [⟨"a", 1⟩, ⟨"b", 1⟩, ⟨"c", 1⟩, ⟨"d", 1⟩, ⟨"e", 1⟩,
          ⟨"f", 1⟩, ⟨"g", 1⟩]) ⟨"a", 1⟩).pending = [⟨"g", 1⟩] :=
  ((claim_C4 [⟨"a", 1⟩, ⟨"b", 1⟩, ⟨"c", 1⟩, ⟨"d", 1⟩, ⟨"e", 1⟩,
      ⟨"f", 1⟩, ⟨"g", 1⟩]
    (initPool [⟨"a", 1⟩, ⟨"b", 1⟩, ⟨"c", 1⟩, ⟨"d", 1⟩, ⟨"e", 1⟩,
      ⟨"f", 1⟩, ⟨"g", 1⟩]) ⟨"a", 1⟩ ⟨"f", 1⟩ [⟨"g", 1⟩]).2.1
    (by decide) (by decide)).2

theorem mem_map_filePath_taskUpdateList (item : TaskItem)
    (ts : List TaskItem) (x : String) :
    x ∈ (taskUpdateList item ts).map TaskItem.filePath →
      x ∈ ts.map TaskItem.filePath ∨ x = item.filePath := by
  induction ts with
  | nil =>
    intro hx
    simp [taskUpdateList] at hx
    simp [hx]
  | cons t ts ih =>
    intro hx
    rw [taskUpdateList] at hx
    by_cases h : t.filePath = item.filePath
    · rw [if_pos h] at hx
      simp only [List.map_cons, List.mem_cons] at hx ⊢
      tauto
    · rw [if_neg h] at hx
      simp only [List.map_cons, List.mem_cons] at hx ⊢
      rcases hx with h1 | h1
      · tauto
      · rcases ih h1 with h2 | h2 <;> tauto

theorem nodup_taskUpdateList (item : TaskItem) (ts : List TaskItem)
    (h : (ts.map TaskItem.filePath).Nodup) :
    ((taskUpdateList item ts).map TaskItem.filePath).Nodup := by
  induction ts with
  | nil => simp [taskUpdateList]
  | cons t ts ih =>
    rw [List.map_cons, List.nodup_cons] at h
    rw [taskUpdateList]
    by_cases hfp : t.filePath = item.filePath
    · rw [if_pos hfp]
      exact List.nodup_cons.mpr ⟨h.1, h.2⟩
    · rw [if_neg hfp]
      rw [List.map_cons, List.nodup_cons]
      refine ⟨?_, ih h.2⟩
      intro hx
      rcases mem_map_filePath_taskUpdateList item ts t.filePath hx with h1 | h1
      · exact h.1 h1
      · exact hfp h1

theorem taskDelete_fst_sublist (cols fml : ℕ) (st : State) (fp : String)
    (ts : List TaskItem) :
    List.Sublist (taskDelete cols fml st fp ts).1 ts := by
  unfold taskDelete
  split
  · exact List.Sublist.refl ts
  · exact List.eraseIdx_sublist ts _

theorem nodup_regStep (ts : List TaskItem) (op : RegOp)
    (h : (ts.map TaskItem.filePath).Nodup) :
    ((regStep ts op).map TaskItem.filePath).Nodup := by
  cases op with
  | update item => exact nodup_taskUpdateList item ts h
  | delete fp =>
    exact List.Nodup.sublist
      (List.Sublist.map TaskItem.filePath
        (taskDelete_fst_sublist 0 0 ⟨none, none, 0⟩ fp ts)) h

/-- C9: starting from the empty module-level `tasks` array, any sequence of
`taskUpdate`/`taskDelete` operations leaves at most one registry entry per
`filePath`: `taskUpdate` overwrites the fields of an existing entry in
place and only pushes a new entry when the key is absent, and `taskDelete`
only removes, so the keys always remain pairwise distinct. -/
theorem claim_C9 (ops : List RegOp) :
    ((applyOps ops).map TaskItem.filePath).Nodup := by
  have hfold : ∀ ts : List TaskItem, (ts.map TaskItem.filePath).Nodup →
      ((ops.foldl regStep ts).map TaskItem.filePath).Nodup := by
    induction ops with
    | nil => intro ts h; simpa using h
    | cons op ops ih =>
      intro ts h
      exact ih (regStep ts op) (nodup_regStep ts op h)
  simpa [applyOps] using hfold [] (by simp)

/-- C10: `taskDelete` with a `filePath` that matches no registered task hits
the `findIndex === -1` early return: the registry is returned unchanged and
the write list is empty (nothing is rendered to stdout). -/
theorem claim_C10 (cols fml : ℕ) (st : State) (fp : String)
    (tasks : List TaskItem) (h : ∀ t ∈ tasks, t.filePath ≠ fp) :
    taskDelete cols fml st fp tasks = (tasks, []) := by
  have hnone : tasks.findIdx? (fun t => t.filePath == fp) = none := by
    rw [List.findIdx?_eq_none_iff]
    intro t ht
    simpa using h t ht
  rw [taskDelete, hnone]

/-- Witness for C10: deleting an unregistered path is a silent no-op. -/
theorem claim_C10_witness :
    taskDelete 80 40 ⟨none, none, 0⟩ "x" [⟨"y", 1, 0, 0⟩] =
      ([⟨"y", 1, 0, 0⟩], []) :=
  claim_C10 80 40 ⟨none, none, 0⟩ "x" [⟨"y", 1, 0, 0⟩] (by decide)

theorem fileFilter_eq_true (f : FileDesc) :
    fileFilter f = true ↔
      (jsEndsWith f.path ".mp4" = true ∨ jsEndsWith f.path ".mkv" = true) ∧
      10 * 1024 * 1024 < f.size := by
  rw [fileFilter]
  by_cases h : suffixes.any (fun suf => jsEndsWith f.path suf) = true
  · rw [if_pos h]
    simp only [suffixes, List.any_cons, List.any_nil, Bool.or_false,
      Bool.or_eq_true] at h
    simp [h]
  · rw [if_neg h]
    simp only [suffixes, List.any_cons, List.any_nil, Bool.or_false,
      Bool.or_eq_true] at h
    simp [h]

/-- C5 counterexample: a file of exactly 10 MiB with an allowed extension —
included according to the claim ("at least 10 MiB") — is discovered by the
walk but rejected by the filter, because the source tests
`size > 10 * 1024 * 1024` strictly. -/
theorem claim_C5_counterexample :
    getFiles (.dir "d" [.file "a.mp4" (10 * 1024 * 1024)]) = [] ∧
    walkdirSync "d" [.file "a.mp4" (10 * 1024 * 1024)] =
      [⟨"d/a.mp4", 10 * 1024 * 1024⟩] ∧
    jsEndsWith "d/a.mp4" ".mp4" = true ∧
    10 * 1024 * 1024 ≤ 10 * 1024 * 1024 := by decide

/-- C5 as amended: for a directory input, a discovered file is kept if and
only if its relative path ends with `.mp4` or `.mkv` and its size is
strictly greater than 10 MiB; the kept files are a sublist of the
deterministic recursive-traversal order produced by `walkdirSync`. -/
theorem claim_C5_amended (name : String) (entries : List FsEntry)
    (f : FileDesc) :
    (f ∈ getFiles (.dir name entries) ↔
      f ∈ walkdirSync name entries ∧
        ((jsEndsWith f.path ".mp4" = true ∨ jsEndsWith f.path ".mkv" = true) ∧
          10 * 1024 * 1024 < f.size)) ∧
    List.Sublist (getFiles (.dir name entries)) (walkdirSync name entries) := by
  constructor
  · simp only [getFiles]
    rw [List.mem_filter, fileFilter_eq_true]
  · simp only [getFiles]
    exact List.filter_sublist _

theorem data_totalLine (n : ℕ) :
    (totalLine n).data =
      'T' :: ("otal tasks: ".data ++ ((toString n).data ++ "\n".data)) := by
  show (("Total tasks: " ++ toString n) ++ "\n").data = _
  rw [String.data_append, String.data_append,
    show ("Total tasks: ").data = 'T' :: "otal tasks: ".data from rfl]
  simp

theorem data_runningLine (n : ℕ) :
    (runningLine n).data =
      'R' :: ("unning tasks: ".data ++ ((toString n).data ++ "\n".data)) := by
  show (("Running tasks: " ++ toString n) ++ "\n").data = _
  rw [String.data_append, String.data_append,
    show ("Running tasks: ").data = 'R' :: "unning tasks: ".data from rfl]
  simp

theorem data_pendingLine (n : ℕ) :
    (pendingLine n).data =
      'P' :: ("ending tasks: ".data ++ ((toString n).data ++ "\n".data)) := by
  show (("Pending tasks: " ++ toString n) ++ "\n").data = _
  rw [String.data_append, String.data_append,
    show ("Pending tasks: ").data = 'P' :: "ending tasks: ".data from rfl]
  simp

theorem totalLine_ne_runningLine (n m : ℕ) : totalLine n ≠ runningLine m := by
  intro h
  have h2 : (totalLine n).data.head? = (runningLine m).data.head? := by rw [h]
  rw [data_totalLine, data_runningLine] at h2
  simp only [List.head?_cons, Option.some.injEq] at h2
  exact absurd h2 (by decide)

theorem totalLine_ne_pendingLine (n m : ℕ) : totalLine n ≠ pendingLine m := by
  intro h
  have h2 : (totalLine n).data.head? = (pendingLine m).data.head? := by rw [h]
  rw [data_totalLine, data_pendingLine] at h2
  simp only [List.head?_cons, Option.some.injEq] at h2
  exact absurd h2 (by decide)

theorem runningLine_ne_pendingLine (n m : ℕ) :
    runningLine n ≠ pendingLine m := by
  intro h
  have h2 : (runningLine n).data.head? = (pendingLine m).data.head? := by
    rw [h]
  rw [data_runningLine, data_pendingLine] at h2
  simp only [List.head?_cons, Option.some.injEq] at h2
  exact absurd h2 (by decide)

theorem pendingLine_mem_headerWrites (st : State) :
    pendingLine st.pending ∈ headerWrites st := by
  unfold headerWrites
  exact List.mem_append_right _ (List.mem_singleton_self _)

theorem totalLine_mem_headerWrites (st : State)
    (h : jsTruthy st.total = true) : ∃ n, totalLine n ∈ headerWrites st := by
  obtain ⟨tot, run, pend⟩ := st
  cases tot with
  | none => simp [jsTruthy] at h
  | some k =>
    have hk : k ≠ 0 := by simpa [jsTruthy] using h
    refine ⟨k, ?_⟩
    unfold headerWrites
    apply List.mem_append_left
    apply List.mem_append_left
    simp [hk]

theorem totalLine_mem_imp (st : State) (n : ℕ)
    (h : totalLine n ∈ headerWrites st) : jsTruthy st.total = true := by
  obtain ⟨tot, run, pend⟩ := st
  unfold headerWrites at h
  rcases List.mem_append.mp h with h1 | h2
  · rcases List.mem_append.mp h1 with ha | hb
    · cases tot with
      | none => simp at ha
      | some k =>
        by_cases hk : k = 0
        · simp [hk] at ha
        · simp [jsTruthy, hk]
    · cases run with
      | none => simp at hb
      | some m =>
        by_cases hm : m = 0
        · simp [hm] at hb
        · simp [hm] at hb
          exact absurd hb (totalLine_ne_runningLine n m)
  · simp at h2
    exact absurd h2 (totalLine_ne_pendingLine n pend)

theorem runningLine_mem_headerWrites (st : State)
    (h : jsTruthy st.running = true) :
    ∃ n, runningLine n ∈ headerWrites st := by
  obtain ⟨tot, run, pend⟩ := st
  cases run with
  | none => simp [jsTruthy] at h
  | some m =>
    have hm : m ≠ 0 := by simpa [jsTruthy] using h
    refine ⟨m, ?_⟩
    unfold headerWrites
    apply List.mem_append_left
    apply List.mem_append_right
    simp [hm]

theorem runningLine_mem_imp (st : State) (n : ℕ)
    (h : runningLine n ∈ headerWrites st) : jsTruthy st.running = true := by
  obtain ⟨tot, run, pend⟩ := st
  unfold headerWrites at h
  rcases List.mem_append.mp h with h1 | h2
  · rcases List.mem_append.mp h1 with ha | hb
    · cases tot with
      | none => simp at ha
      | some k =>
        by_cases hk : k = 0
        · simp [hk] at ha
        · simp [hk] at ha
          exact absurd ha.symm (totalLine_ne_runningLine k n)
    · cases run with
      | none => simp at hb
      | some m =>
        by_cases hm : m = 0
        · simp [hm] at hb
        · simp [jsTruthy, hm]
  · simp at h2
    exact absurd h2 (runningLine_ne_pendingLine n pend)

/-- C8 counterexample: with `pending = 0` the source still writes the
`Pending tasks: 0` line — that write is unconditional, so the pending line
is not omitted when its value is zero as the claim states. -/
theorem claim_C8_counterexample :
    pendingLine 0 ∈ showProgressWrites 5 4 ⟨some 7, some 5, 0⟩ [] := by decide

/-- C8 as amended: in the rendered block the total-count and running-count
header lines are each printed exactly when their value is truthy (present
and nonzero) and omitted otherwise, while the pending-count line is printed
unconditionally — also when pending is 0; the header lines form the initial
segment of the writes. -/
theorem claim_C8_amended (cols fml : ℕ) (st : State) (tasks : List TaskItem) :
    pendingLine st.pending ∈ showProgressWrites cols fml st tasks ∧
    ((∃ n, totalLine n ∈ headerWrites st) ↔ jsTruthy st.total = true) ∧
    ((∃ n, runningLine n ∈ headerWrites st) ↔ jsTruthy st.running = true) ∧
    ∃ tail, showProgressWrites cols fml st tasks = headerWrites st ++ tail := by
  refine ⟨?_, ⟨?_, ?_⟩, ⟨?_, ?_⟩, ⟨_, rfl⟩⟩
  · unfold showProgressWrites
    exact List.mem_append_left _ (pendingLine_mem_headerWrites st)
  · rintro ⟨n, hn⟩
    exact totalLine_mem_imp st n hn
  · exact totalLine_mem_headerWrites st
  · rintro ⟨n, hn⟩
    exact runningLine_mem_imp st n hn
  · exact runningLine_mem_headerWrites st

end Uploader
